import Mathlib

/-!
# Verification of the alliance-manager credential core

Shallow embedding of the credential-management core of the
`orbistech_alliancemanager` repository:

* `src/backend/src/utils/encryption.ts` — encrypt / decrypt / mask,
* `src/backend/src/utils/pnwApi.ts` — external key validation and usage check,
* the auth middleware (`requireAllianceManager`, `requireAllianceAdmin`) and
  the `/api/api-keys` route handlers (link, unlink personal, unlink alliance).

Machine strings are Lean `String`s; byte sequences are `List Nat` with every
entry `< 256`; JavaScript `number` arithmetic on usage percentages is modelled
over `ℚ` (the concrete inputs checked below are exact in binary floating point
as well).  Fallible operations return `Except String`; HTTP handlers return a
status code together with the updated store.
-/

namespace AllianceManager

/-! ## Masking — `maskSensitiveData` (encryption.ts lines 153–163)

JavaScript source:
```
if (!data || data.length <= visibleChars * 2) {
  return '*'.repeat(data?.length || 8);
}
const start = data.substring(0, visibleChars);
const end = data.substring(data.length - visibleChars);
const middle = '*'.repeat(Math.max(4, data.length - visibleChars * 2));
return start + middle + end;
```
`!data` on a string is true only for the empty string, which already satisfies
`data.length <= visibleChars * 2`; `data?.length || 8` is `8` exactly when the
length is `0`.  `substring(0, v)` is the first `v` characters and
`substring(len - v)` the last `v` characters. -/
def maskSensitiveData (data : String) (visibleChars : Nat := 4) : String :=
  if data.length ≤ visibleChars * 2 then
    String.mk (List.replicate (if data.length = 0 then 8 else data.length) '*')
  else
    let start := data.take visibleChars
    let stop := data.drop (data.length - visibleChars)
    let middle := String.mk (List.replicate (max 4 (data.length - visibleChars * 2)) '*')
    start ++ middle ++ stop

/-! ## Usage check — `checkApiKeyRateLimit` (pnwApi.ts lines 245–256)

JavaScript source (after the transport call):
```
const requestsUsed = me.requests || 0;
const maxRequests = me.max_requests || 2000;
const percentageUsed = (requestsUsed / maxRequests) * 100;
const isNearLimit = percentageUsed > 80;
```
`me.requests` / `me.max_requests` may be absent (`undefined`), hence
`Option Nat`; JavaScript `x || d` falls back to `d` when `x` is `undefined`
or `0`. -/
def jsOrNat (v : Option Nat) (dflt : Nat) : Nat :=
  match v with
  | none => dflt
  | some 0 => dflt
  | some n => n

structure RateLimitStatus where
  requestsUsed : Nat
  maxRequests : Nat
  percentageUsed : ℚ
  isNearLimit : Bool
deriving Repr, DecidableEq

/-- The pure numeric core of `checkApiKeyRateLimit`, applied to the `me`
block returned by the upstream usage query. -/
def checkApiKeyRateLimitCore (requests max_requests : Option Nat) : RateLimitStatus :=
  let requestsUsed := jsOrNat requests 0
  let maxRequests := jsOrNat max_requests 2000
  let percentageUsed : ℚ := (requestsUsed : ℚ) / (maxRequests : ℚ) * 100
  { requestsUsed := requestsUsed
    maxRequests := maxRequests
    percentageUsed := percentageUsed
    isNearLimit := decide (80 < percentageUsed) }

/-- Outcome of the lightweight usage transport call (`me` block, or any
transport / upstream error, which the source turns into a thrown
`'Failed to check rate limit'`). -/
inductive UsageFetch where
  | ok (requests max_requests : Option Nat)
  | failed
deriving Repr, DecidableEq

def checkApiKeyRateLimit : UsageFetch → Except String RateLimitStatus
  | .ok r m => .ok (checkApiKeyRateLimitCore r m)
  | .failed => .error "Failed to check rate limit"

/-! ## External key validation — `validatePnWApiKey` (pnwApi.ts lines 58–171)

The function first applies a purely local format check
(`!apiKey || typeof apiKey !== 'string' || apiKey.length < 20`; on Lean
strings only the length test matters, the empty string having length `0`),
and only then issues the network call.  The network is modelled as an
explicit `TransportOutcome` argument: either a GraphQL response body (a 2xx
HTTP answer carrying an `errors` array and/or `me` / `nations` data), or a
thrown axios error carrying `error.code` and `error.response?.status`.  The
pair's second component records whether the network call was issued. -/

/-- JavaScript `haystack.includes(needle)` on the character list level. -/
def strIncludesAux (pat : List Char) : List Char → Bool
  | [] => decide (pat = [])
  | c :: rest => pat.isPrefixOf (c :: rest) || strIncludesAux pat rest

/-- JavaScript `s.includes(pat)`. -/
def strIncludes (s pat : String) : Bool := strIncludesAux pat.data s.data

structure PnWPermissions where
  canViewNationResources : Bool
  canViewAllianceBank : Bool
  canManageAllianceBank : Bool
deriving Repr, DecidableEq

/-- Mirrors the `ApiKeyValidationResult` interface of pnwApi.ts. -/
structure ApiKeyValidationResult where
  isValid : Bool
  nationId : Option Nat := none
  nationName : Option String := none
  allianceId : Option Nat := none
  allianceName : Option String := none
  permissions : Option PnWPermissions := none
  requestsUsed : Option Nat := none
  maxRequests : Option Nat := none
  error : Option String := none
deriving Repr, DecidableEq

/-- One entry of `nations.data` in the GraphQL response. -/
structure NationBlock where
  id : Nat
  nation_name : String
  alliance_id : Option Nat
  allianceName : Option String
deriving Repr, DecidableEq

/-- The `me` block of the GraphQL response; `requests` / `max_requests` may be
absent, and the `permissions` sub-block may be absent (the source reads it as
`me.permissions?.x || false`). -/
structure MeBlock where
  requests : Option Nat
  max_requests : Option Nat
  permissions : Option PnWPermissions
deriving Repr, DecidableEq

/-- A 2xx GraphQL response body: the messages of `response.data.errors`
together with the `me` and `nations.data` blocks. -/
structure GraphQLResponse where
  errors : List String
  me : Option MeBlock
  nations : Option (List NationBlock)
deriving Repr, DecidableEq

/-- Outcome of the axios POST: a response body, or a thrown error with
`error.code` and `error.response?.status`. -/
inductive TransportOutcome where
  | ok (resp : GraphQLResponse)
  | err (code : Option String) (status : Option Nat)
deriving Repr, DecidableEq

/-- `error.response?.status >= 500` (false when the status is absent, as for
JavaScript `undefined >= 500`). -/
def statusAtLeast500 : Option Nat → Bool
  | some s => decide (500 ≤ s)
  | none => false

/-- `validatePnWApiKey`, returning the validation result together with a flag
recording whether the external call was issued. -/
def validatePnWApiKey (apiKey : String) (transport : TransportOutcome) :
    ApiKeyValidationResult × Bool :=
  if apiKey.length < 20 then
    ({ isValid := false, error := some "Invalid API key format" }, false)
  else
    match transport with
    | .ok resp =>
      match resp.errors with
      | msg :: _ =>
        if strIncludes msg "Invalid API key" || strIncludes msg "Unauthorized" then
          ({ isValid := false, error := some "Invalid or expired API key" }, true)
        else if strIncludes msg "Rate limit exceeded" then
          ({ isValid := false,
             error := some "API rate limit exceeded, please try again later" }, true)
        else
          ({ isValid := false, error := some ("API error: " ++ msg) }, true)
      | [] =>
        match resp.me, resp.nations with
        | some me, some (nation :: _) =>
          ({ isValid := true
             nationId := some nation.id
             nationName := some nation.nation_name
             allianceId := nation.alliance_id
             allianceName := nation.allianceName
             permissions := some (me.permissions.getD ⟨false, false, false⟩)
             requestsUsed := me.requests
             maxRequests := me.max_requests }, true)
        | _, _ =>
          ({ isValid := false, error := some "Unable to retrieve nation data" }, true)
    | .err code status =>
      if code = some "ENOTFOUND" ∨ code = some "ECONNREFUSED" then
        ({ isValid := false,
           error := some "Unable to connect to Politics and War API" }, true)
      else if code = some "TIMEOUT" ∨ code = some "ECONNABORTED" then
        ({ isValid := false,
           error := some "Request timeout - Politics and War API is slow to respond" }, true)
      else if status = some 429 then
        ({ isValid := false,
           error := some "Rate limit exceeded, please try again later" }, true)
      else if statusAtLeast500 status then
        ({ isValid := false,
           error := some "Politics and War API is currently unavailable" }, true)
      else
        ({ isValid := false, error := some "Failed to validate API key" }, true)

/-! ### The error taxonomy of spec §7, as a reading of the result strings -/

inductive ErrorTaxonomy where
  | okResult
  | invalidFormat
  | invalidOrExpired
  | upstreamRateLimited
  | upstreamUnavailable
  | unknownUpstreamError
deriving Repr, DecidableEq

/-- Maps each error string produced by `validatePnWApiKey` to the taxonomy
class the spec associates with it (spec §7: `InvalidFormat` for the local
rejection, `InvalidOrExpired` for the rejected-authorization message,
`UpstreamRateLimited` for the two rate-limit messages, `UpstreamUnavailable`
for connection failure / timeout / 5xx messages, `UnknownUpstreamError`
otherwise). -/
def taxonomyOf (r : ApiKeyValidationResult) : ErrorTaxonomy :=
  match r.error with
  | none => .okResult
  | some e =>
    if e = "Invalid API key format" then .invalidFormat
    else if e = "Invalid or expired API key" then .invalidOrExpired
    else if e = "API rate limit exceeded, please try again later" ∨
            e = "Rate limit exceeded, please try again later" then .upstreamRateLimited
    else if e = "Unable to connect to Politics and War API" ∨
            e = "Request timeout - Politics and War API is slow to respond" ∨
            e = "Politics and War API is currently unavailable" then .upstreamUnavailable
    else .unknownUpstreamError

/-- Modelled from the spec's words for claim C6, to be compared with the code:
"an error message containing `Invalid API key` or `Unauthorized` maps to
`InvalidOrExpired`; a message containing `Rate limit exceeded` maps to
`UpstreamRateLimited`; a 5xx status or connection failure or timeout maps to
`UpstreamUnavailable`; any other error payload maps to
`UnknownUpstreamError`" (first match wins). -/
def specClaimedClassification (t : TransportOutcome) : ErrorTaxonomy :=
  match t with
  | .ok resp =>
    match resp.errors with
    | msg :: _ =>
      if strIncludes msg "Invalid API key" || strIncludes msg "Unauthorized" then
        .invalidOrExpired
      else if strIncludes msg "Rate limit exceeded" then .upstreamRateLimited
      else .unknownUpstreamError
    | [] => .okResult
  | .err code status =>
    if code = some "ENOTFOUND" ∨ code = some "ECONNREFUSED" ∨
        code = some "TIMEOUT" ∨ code = some "ECONNABORTED" ∨
        statusAtLeast500 status = true then .upstreamUnavailable
    else .unknownUpstreamError

/-- The classification the code actually implements, stated transport-side:
like `specClaimedClassification` but an HTTP 429 transport status (checked
after connection failure / timeout, before the 5xx test) also maps to
`UpstreamRateLimited`. -/
def codeClassification (t : TransportOutcome) : ErrorTaxonomy :=
  match t with
  | .ok resp =>
    match resp.errors with
    | msg :: _ =>
      if strIncludes msg "Invalid API key" || strIncludes msg "Unauthorized" then
        .invalidOrExpired
      else if strIncludes msg "Rate limit exceeded" then .upstreamRateLimited
      else .unknownUpstreamError
    | [] => .okResult
  | .err code status =>
    if code = some "ENOTFOUND" ∨ code = some "ECONNREFUSED" then .upstreamUnavailable
    else if code = some "TIMEOUT" ∨ code = some "ECONNABORTED" then .upstreamUnavailable
    else if status = some 429 then .upstreamRateLimited
    else if statusAtLeast500 status then .upstreamUnavailable
    else .unknownUpstreamError

/-- A transport outcome that is an error response (a GraphQL `errors` array
with at least one entry, or a thrown transport error). -/
def TransportOutcome.isErrorOutcome : TransportOutcome → Prop
  | .ok resp => resp.errors ≠ []
  | .err _ _ => True

/-! ## Credential cipher — `encryptApiKey` / `decryptApiKey` (encryption.ts 29–108)

The cipher is AES-256-GCM under a PBKDF2-derived key, with the per-secret salt
bound as additional authenticated data, serialized as the colon-joined hex
string `salt:iv:tag:ciphertext`.  The embedding keeps every structural step of
the source — fresh salt/IV as explicit arguments, PBKDF2 key derivation, the
CTR-keystream XOR of authenticated GCM, tag computation over (IV, AAD,
ciphertext), hex serialization, the 4-field split and tag check on decrypt —
and models the two cryptographic primitives (the PBKDF2-SHA512 derivation and
the AES block-cipher keystream / GHASH tag) as concrete deterministic
pseudorandom stand-ins, since only their determinism (never their internal
structure) is relevant to the properties proved here. -/

/-- Hex digit for a nibble (`Buffer.toString('hex')` uses lowercase). -/
def hexDigitChar (n : Nat) : Char :=
  match n with
  | 0 => '0' | 1 => '1' | 2 => '2' | 3 => '3' | 4 => '4'
  | 5 => '5' | 6 => '6' | 7 => '7' | 8 => '8' | 9 => '9'
  | 10 => 'a' | 11 => 'b' | 12 => 'c' | 13 => 'd' | 14 => 'e'
  | _ => 'f'

/-- Numeric value of a hex digit (`Buffer.from(s, 'hex')`). -/
def hexValue (c : Char) : Nat :=
  match c with
  | '0' => 0 | '1' => 1 | '2' => 2 | '3' => 3 | '4' => 4
  | '5' => 5 | '6' => 6 | '7' => 7 | '8' => 8 | '9' => 9
  | 'a' => 10 | 'b' => 11 | 'c' => 12 | 'd' => 13 | 'e' => 14
  | _ => 15

def byteToHex (b : Nat) : List Char := [hexDigitChar (b / 16), hexDigitChar (b % 16)]

def bytesToHexList (bs : List Nat) : List Char := bs.flatMap byteToHex

/-- `buffer.toString('hex')`. -/
def bytesToHex (bs : List Nat) : String := String.mk (bytesToHexList bs)

def hexToBytesList : List Char → List Nat
  | h :: l :: rest => (hexValue h * 16 + hexValue l) :: hexToBytesList rest
  | _ => []

/-- `Buffer.from(s, 'hex')`. -/
def hexToBytes (s : String) : List Nat := hexToBytesList s.data

/-- JavaScript `s.split(':')` at the character-list level. -/
def splitColonList : List Char → List (List Char)
  | [] => [[]]
  | c :: cs =>
    if c = ':' then [] :: splitColonList cs
    else
      match splitColonList cs with
      | [] => [[c]]
      | p :: ps => (c :: p) :: ps

/-- JavaScript `s.split(':')`. -/
def splitColon (s : String) : List String := (splitColonList s.data).map String.mk

/-- Model of `crypto.pbkdf2Sync(masterKey, salt, 100000, 32, 'sha512')`: an
opaque deterministic function of the master key and the salt.  The proofs
below rely only on its determinism, never on its internal structure. -/
def deriveKey (masterKey salt : String) : Nat :=
  masterKey.data.foldl (fun a c => a * 131 + c.toNat + 1) 7 * 1000003 +
    salt.data.foldl (fun a c => a * 131 + c.toNat + 1) 11

/-- Model of the AES-256-CTR keystream that GCM XORs against the plaintext:
an opaque deterministic byte stream generated from the derived key and the
IV.  Only determinism and byte range are used below. -/
def keyStream (key : Nat) (iv : List Nat) (len : Nat) : List Nat :=
  (List.range len).map (fun i =>
    (key + iv.foldl (fun a b => a * 257 + b) 0 * 97 + i * 1103515245 + 12345) % 256)

/-- Model of the 16-byte GCM authentication tag (GHASH over the IV, the
additional authenticated data and the ciphertext, under the derived key):
an opaque deterministic function of those inputs. -/
def gcmTag (key : Nat) (iv aad ct : List Nat) : List Nat :=
  (List.range 16).map (fun i =>
    (key * 31 + (iv ++ aad ++ ct).foldl (fun a b => a * 37 + b + 1) i + i) % 256)

/-- UTF-8 encoding of one scalar value (`cipher.update(plaintext, 'utf8', _)`
encodes the JavaScript string as UTF-8 bytes first). -/
def utf8EncodeChar (c : Char) : List Nat :=
  let n := c.toNat
  if n < 128 then [n]
  else if n < 2048 then [192 + n / 64, 128 + n % 64]
  else if n < 65536 then [224 + n / 4096, 128 + n / 64 % 64, 128 + n % 64]
  else [240 + n / 262144, 128 + n / 4096 % 64, 128 + n / 64 % 64, 128 + n % 64]

def utf8Encode (cs : List Char) : List Nat := cs.flatMap utf8EncodeChar

/-- One step of UTF-8 decoding: the first scalar value encoded at the head of
the byte list, with the remaining bytes; `none` on a malformed head. -/
def utf8DecodeOne : List Nat → Option (Char × List Nat)
  | [] => none
  | b1 :: r1 =>
    if b1 < 128 then some (Char.ofNat b1, r1)
    else if b1 < 192 then none
    else if b1 < 224 then
      match r1 with
      | b2 :: r2 =>
        if 128 ≤ b2 ∧ b2 < 192 then
          some (Char.ofNat ((b1 - 192) * 64 + (b2 - 128)), r2)
        else none
      | [] => none
    else if b1 < 240 then
      match r1 with
      | b2 :: b3 :: r3 =>
        if (128 ≤ b2 ∧ b2 < 192) ∧ (128 ≤ b3 ∧ b3 < 192) then
          some (Char.ofNat ((b1 - 224) * 4096 + (b2 - 128) * 64 + (b3 - 128)), r3)
        else none
      | _ => none
    else if b1 < 256 then
      match r1 with
      | b2 :: b3 :: b4 :: r4 =>
        if (128 ≤ b2 ∧ b2 < 192) ∧ (128 ≤ b3 ∧ b3 < 192) ∧ (128 ≤ b4 ∧ b4 < 192) then
          some (Char.ofNat
            ((b1 - 240) * 262144 + (b2 - 128) * 4096 + (b3 - 128) * 64 + (b4 - 128)), r4)
        else none
      | _ => none
    else none

/-- Fuel-indexed UTF-8 decoding loop (the fuel bounds the number of decoded
characters; a byte list of length `n` holds at most `n` characters). -/
def utf8DecodeFuel : Nat → List Nat → Option (List Char)
  | _, [] => some []
  | 0, _ :: _ => none
  | fuel + 1, b :: rest =>
    match utf8DecodeOne (b :: rest) with
    | none => none
    | some (c, r) => (utf8DecodeFuel fuel r).map (fun cs => c :: cs)

/-- UTF-8 decoding (`decipher.update(_, 'hex', 'utf8')` decodes the decrypted
bytes back into a string); `none` on a malformed byte sequence. -/
def utf8Decode (l : List Nat) : Option (List Char) := utf8DecodeFuel l.length l

/-- `encryptApiKey(plaintext, userSalt?)` (encryption.ts 29–65).  The process
environment (`process.env.ENCRYPTION_KEY`, absent or empty ⇒ throw, caught and
rethrown as `'Failed to encrypt API key'`) and the randomness drawn by the
call (`generateSalt()`'s 32 bytes, the 16 IV bytes) are explicit arguments.
The salt (hex string) is bound as AAD via `Buffer.from(salt, 'hex')`, and the
output is `salt:iv:tag:ciphertext`, all hex. -/
def encryptApiKeyM (masterKey : Option String) (randSalt randIV : List Nat)
    (plaintext : String) (userSalt : Option String) : Except String String :=
  match masterKey with
  | none => .error "Failed to encrypt API key"
  | some mk =>
    if mk = "" then .error "Failed to encrypt API key"
    else
      let salt := userSalt.getD (bytesToHex randSalt)
      let key := deriveKey mk salt
      let aad := hexToBytes salt
      let pt := utf8Encode plaintext.data
      let ks := keyStream key randIV pt.length
      let ct := List.zipWith (· ^^^ ·) pt ks
      let tag := gcmTag key randIV aad ct
      .ok (salt ++ ":" ++ bytesToHex randIV ++ ":" ++ bytesToHex tag ++ ":" ++ bytesToHex ct)

/-- `decryptApiKey(encryptedData)` (encryption.ts 72–108): master key check,
4-field colon split, key re-derivation from the embedded salt, tag
verification (AAD = salt bytes), keystream XOR, UTF-8 decode.  Every failure
is caught and rethrown as `'Failed to decrypt API key'`. -/
def decryptApiKeyM (masterKey : Option String) (encryptedData : String) :
    Except String String :=
  match masterKey with
  | none => .error "Failed to decrypt API key"
  | some mk =>
    if mk = "" then .error "Failed to decrypt API key"
    else
      match splitColon encryptedData with
      | [salt, ivHex, tagHex, ctHex] =>
        let key := deriveKey mk salt
        let iv := hexToBytes ivHex
        let tag := hexToBytes tagHex
        let aad := hexToBytes salt
        let ct := hexToBytes ctHex
        if gcmTag key iv aad ct = tag then
          match utf8Decode (List.zipWith (· ^^^ ·) ct (keyStream key iv ct.length)) with
          | some cs => .ok (String.mk cs)
          | none => .error "Failed to decrypt API key"
        else .error "Failed to decrypt API key"
      | _ => .error "Failed to decrypt API key"

/-! ## Store and authorization model — auth middleware and `/api/api-keys` routes

The relational store (the Prisma tables referenced by the routes) is a record
of lists; `findFirst` / `findUnique` become `List.find?`, and `update` maps
over the list replacing the matching row.  The authenticated caller is the
`AuthenticatedUser` snapshot the auth middleware attaches to the request. -/

/-- A row of the `AllianceManager` table; the session snapshot entries of
`AuthenticatedUser.allianceManagers` carry the same fields. -/
structure ManagerGrant where
  id : String
  userId : String
  allianceId : String
  allianceSlug : String
  role : String
  isActive : Bool
  managerApiKey : Option String := none
deriving Repr, DecidableEq

/-- The authenticated caller (`AuthenticatedUser` in the auth middleware). -/
structure AuthUser where
  id : String
  isSystemAdmin : Bool
  allianceManagers : List ManagerGrant
deriving Repr, DecidableEq

/-- A row of the `Alliance` table (the fields the api-keys routes touch). -/
structure Alliance where
  id : String
  routeSlug : String
  allianceName : String
deriving Repr, DecidableEq

/-- A row of the `User` table (the fields referenced across the backend:
identity, Discord profile, linked PnW credential and cached nation identity,
profile preferences, timestamps). -/
structure UserRec where
  id : String
  discordId : String
  discordUsername : String
  discordAvatar : Option String := none
  discordTag : Option String := none
  pnwApiKey : Option String := none
  pnwNationId : Option Nat := none
  pnwNationName : Option String := none
  timezone : Option String := none
  language : Option String := none
  preferences : Option String := none
  createdAt : Nat := 0
  lastLogin : Nat := 0
deriving Repr, DecidableEq

/-- An `AuditLog` row (the fields the claims touch). -/
structure AuditEntry where
  userId : String
  allianceId : Option String := none
  action : String
deriving Repr, DecidableEq

structure Db where
  users : List UserRec
  alliances : List Alliance
  allianceManagers : List ManagerGrant
  auditLog : List AuditEntry := []
deriving Repr, DecidableEq

/-- `requireAllianceManager` middleware (auth middleware lines 107–141).  The
alliance identifier it gates on is `req.params.allianceSlug ||
req.body.allianceSlug` — and the api-keys routes name their path parameter
`:slug`, so for them `req.params.allianceSlug` is `undefined` and only the
request **body**'s `allianceSlug` reaches the middleware (`allianceSlug` below
is that resolved value; `none` or the empty string are falsy).  A missing
identifier is a 400 — checked *before* the system-admin bypass, so it rejects
every caller.  Otherwise: system admins pass with no attached context; any
other caller needs an active grant in the session snapshot whose
`allianceSlug` matches, which is attached as `req.allianceManager`; else 403. -/
def requireAllianceManager (user : AuthUser) (allianceSlug : Option String) :
    Except Nat (Option ManagerGrant) :=
  match allianceSlug with
  | none => .error 400
  | some s =>
    if s = "" then .error 400
    else if user.isSystemAdmin then .ok none
    else
      match user.allianceManagers.find? (fun m =>
          m.allianceSlug == s && m.isActive) with
      | some m => .ok (some m)
      | none => .error 403

/-- `requireAllianceAdmin` middleware (auth middleware lines 174–193):
`requireAllianceManager`, then — unless the caller is a system admin — 403
when the attached manager context's role is not `"admin"`.  Defined because
the spec's access-policy clause describes it; the api-keys routes register
only `requireAllianceManager`. -/
def requireAllianceAdmin (user : AuthUser) (allianceSlug : Option String) :
    Except Nat (Option ManagerGrant) :=
  match requireAllianceManager user allianceSlug with
  | .error st => .error st
  | .ok ctx =>
    if user.isSystemAdmin then .ok ctx
    else
      match ctx with
      | some m => if m.role = "admin" then .ok (some m) else .error 403
      | none => .error 403

/-- `DELETE /api/api-keys/alliance/:slug` handler (api-keys route lines
363–422).  The route's path parameter is named `slug`, so the
`requireAllianceManager` middleware sees only `req.body.allianceSlug`
(`bodySlug` here) and answers 400 when the request has no body slug; the
handler itself then reads the *path* parameter `slug` for the alliance
lookup (404 when unknown), looks up an active manager row for (caller,
alliance), answers 403 when there is no row and the caller is not a system
admin, nulls the row's `managerApiKey` (when a row exists), appends the
audit entry, and answers 200. -/
def deleteAllianceApiKey (db : Db) (user : AuthUser) (slug : String)
    (bodySlug : Option String) : Nat × Db :=
  match requireAllianceManager user bodySlug with
  | .error st => (st, db)
  | .ok _ =>
    match db.alliances.find? (fun a => a.routeSlug == slug) with
    | none => (404, db)
    | some alliance =>
      let allianceManager := db.allianceManagers.find? (fun m =>
        m.userId == user.id && m.allianceId == alliance.id && m.isActive)
      if allianceManager = none ∧ user.isSystemAdmin = false then (403, db)
      else
        let db1 : Db :=
          match allianceManager with
          | some m =>
            let managers := db.allianceManagers.map (fun (x : ManagerGrant) =>
              if x.id = m.id then { x with managerApiKey := none } else x)
            { db with allianceManagers := managers }
          | none => db
        (200, { db1 with auditLog := db1.auditLog ++
          [{ userId := user.id, allianceId := some alliance.id,
             action := "alliance_api_key_removed" }] })

/-- The update `DELETE /api/api-keys/personal` applies to the caller's row:
`prisma.user.update({ data: { pnwApiKey: null, pnwNationId: null,
pnwNationName: null } })`. -/
def clearPnwFields (u : UserRec) : UserRec :=
  { u with pnwApiKey := none, pnwNationId := none, pnwNationName := none }

/-- `DELETE /api/api-keys/personal` handler (api-keys route lines 320–356).
`prisma.user.update` throws when no row matches `user.id` (caught, 500);
otherwise the three PnW fields are nulled unconditionally, the removal is
audited, and the response is 200. -/
def deletePersonalApiKey (db : Db) (user : AuthUser) : Nat × Db :=
  if (db.users.find? (fun u => u.id == user.id)).isSome then
    (200,
      { db with
        users := db.users.map (fun u =>
          if u.id = user.id then clearPnwFields u else u)
        auditLog := db.auditLog ++
          [{ userId := user.id, action := "api_key_removed" }] })
  else (500, db)

/-- The Joi schema of `POST /api/api-keys/link`: `apiKey` between 20 and 200
characters; `keyType` one of `personal` / `alliance`, defaulting to
`personal`; `allianceSlug` required for `alliance` and forbidden for
`personal`. -/
def linkBodyValid (apiKey : String) (keyType : Option String)
    (allianceSlug : Option String) : Bool :=
  let kt := keyType.getD "personal"
  decide (20 ≤ apiKey.length) && decide (apiKey.length ≤ 200) &&
    (kt == "personal" || kt == "alliance") &&
    (if kt == "alliance" then allianceSlug.isSome else allianceSlug.isNone)

/-- The duplicate-key check of the link handler (api-keys route lines 52–75):
`prisma.user.findFirst({ where: { pnwApiKey: { not: null } } })` fetches the
**first** user holding any stored key; that single blob is decrypted and
compared with the submitted secret (decryption failures are ignored). -/
def duplicateKeyCheck (masterKey : Option String) (db : Db) (apiKey : String) : Bool :=
  match db.users.find? (fun u => u.pnwApiKey.isSome) with
  | some exUser =>
    match exUser.pnwApiKey with
    | some blob =>
      match decryptApiKeyM masterKey blob with
      | .ok existingKey => existingKey == apiKey
      | .error _ => false
    | none => false
  | none => false

/-- `POST /api/api-keys/link` handler (api-keys route lines 27–199): Joi
validation (400), upstream validation of the secret (400), duplicate-key
check (409), then the personal or alliance store path.  Personal: encrypt
under a fresh salt (500 on a thrown encryption error), write the blob and the
cached nation identity to the caller's row (500 when the row is missing),
audit, 200.  Alliance: alliance lookup (404), active manager-row check (403
unless system admin), encrypt, write the blob to the manager row when one
exists, audit, 200. -/
def linkApiKey (masterKey : Option String) (randSalt randIV : List Nat)
    (db : Db) (user : AuthUser) (apiKey : String) (keyType : Option String)
    (allianceSlug : Option String) (transport : TransportOutcome) : Nat × Db :=
  if linkBodyValid apiKey keyType allianceSlug = false then (400, db)
  else if (validatePnWApiKey apiKey transport).1.isValid = false then (400, db)
  else if duplicateKeyCheck masterKey db apiKey then (409, db)
  else
    let validation := (validatePnWApiKey apiKey transport).1
    if keyType.getD "personal" == "personal" then
      match encryptApiKeyM masterKey randSalt randIV apiKey none with
      | .error _ => (500, db)
      | .ok enc =>
        if (db.users.find? (fun u => u.id == user.id)).isSome then
          (200,
            { db with
              users := db.users.map (fun u =>
                if u.id = user.id then
                  { u with pnwApiKey := some enc,
                           pnwNationId := validation.nationId,
                           pnwNationName := validation.nationName }
                else u)
              auditLog := db.auditLog ++
                [{ userId := user.id, action := "api_key_linked" }] })
        else (500, db)
    else
      match allianceSlug with
      | none => (500, db)
      | some slug =>
        match db.alliances.find? (fun a => a.routeSlug == slug) with
        | none => (404, db)
        | some alliance =>
          let row := db.allianceManagers.find? (fun m =>
            m.userId == user.id && m.allianceId == alliance.id && m.isActive)
          if row = none ∧ user.isSystemAdmin = false then (403, db)
          else
            match encryptApiKeyM masterKey randSalt randIV apiKey none with
            | .error _ => (500, db)
            | .ok enc =>
              let db1 : Db :=
                match row with
                | some m =>
                  let managers := db.allianceManagers.map (fun (x : ManagerGrant) =>
                    if x.id = m.id then { x with managerApiKey := some enc } else x)
                  { db with allianceManagers := managers }
                | none => db
              (200, { db1 with auditLog := db1.auditLog ++
                [{ userId := user.id, allianceId := some alliance.id,
                   action := "alliance_api_key_linked" }] })

/-! ### Concrete fixtures used by the closed theorems below -/

def viewerGrant : ManagerGrant :=
  { id := "mg1", userId := "u1", allianceId := "al1", allianceSlug := "acme",
    role := "viewer", isActive := true, managerApiKey := some "oldblob" }

def viewerUser : AuthUser := ⟨"u1", false, [viewerGrant]⟩

def acmeAlliance : Alliance := ⟨"al1", "acme", "Acme"⟩

def demoDb : Db := ⟨[], [acmeAlliance], [viewerGrant], []⟩

/-- A successful upstream validation response (identity 42 "Testland",
usage 10 / 2000). -/
def okTransport : TransportOutcome :=
  .ok ⟨[], some ⟨some 10, some 2000, none⟩, some [⟨42, "Testland", none, none⟩]⟩

/-- Extracts the blob of a successful encryption (fixtures only). -/
def okBlob (e : Except String String) : String :=
  match e with
  | .ok b => b
  | .error _ => ""

def blobA : String :=
  okBlob (encryptApiKeyM (some "master") [1] [2] "AAAAAAAAAAAAAAAAAAAA" none)

def blobB : String :=
  okBlob (encryptApiKeyM (some "master") [3] [4] "BBBBBBBBBBBBBBBBBBBB" none)

def userA : UserRec :=
  { id := "uA", discordId := "dA", discordUsername := "A", pnwApiKey := some blobA }

def userB : UserRec :=
  { id := "uB", discordId := "dB", discordUsername := "B", pnwApiKey := some blobB }

def userC : UserRec :=
  { id := "uC", discordId := "dC", discordUsername := "C" }

def dbLink : Db := ⟨[userA, userB, userC], [], [], []⟩

def callerA : AuthUser := ⟨"uA", false, []⟩

def callerC : AuthUser := ⟨"uC", false, []⟩

def demoUserRec : UserRec :=
  { id := "u1", discordId := "d1", discordUsername := "Alice",
    pnwApiKey := some "blob", pnwNationId := some 7, pnwNationName := some "Nation" }

def demoAuth : AuthUser := ⟨"u1", false, []⟩

def dbPersonal : Db := ⟨[demoUserRec], [], [], []⟩

/-! ## Theorems -/

/-! ## Theorems about masking and usage -/

/-- **C8.** For inputs longer than `visibleChars * 2`, `maskSensitiveData`
returns the first `visibleChars` characters, a run of `max 4 (len - 2·v)`
asterisks, and the last `visibleChars` characters; in particular
`mask "ABCDEFGHIJKLMNOP" 4 = "ABCD********MNOP"`. -/
theorem maskSensitiveData_long_spec :
    (∀ (s : String) (v : Nat), v * 2 < s.length →
      maskSensitiveData s v =
        s.take v ++ String.mk (List.replicate (max 4 (s.length - v * 2)) '*') ++
          s.drop (s.length - v)) ∧
    maskSensitiveData "ABCDEFGHIJKLMNOP" 4 = "ABCD********MNOP" := by
  constructor
  · intro s v h
    simp [maskSensitiveData, Nat.not_le.mpr h]
  · decide

/-- Witness for `maskSensitiveData_long_spec`: its universally quantified part
instantiated at `"ABCDEFGHIJKLMNOP"`, `v = 4`. -/
theorem maskSensitiveData_long_spec_witness :
    maskSensitiveData "ABCDEFGHIJKLMNOP" 4 =
      String.take "ABCDEFGHIJKLMNOP" 4 ++
        String.mk (List.replicate (max 4 (String.length "ABCDEFGHIJKLMNOP" - 4 * 2)) '*') ++
        String.drop "ABCDEFGHIJKLMNOP" (String.length "ABCDEFGHIJKLMNOP" - 4) :=
  maskSensitiveData_long_spec.1 "ABCDEFGHIJKLMNOP" 4 (by decide)

/-- **C3 counterexample.** Two inputs whose lengths are both `≤ visibleChars*2`
(`"short"` and `"abc"` with `visibleChars = 4`) get redaction runs of
*different* lengths (5 resp. 3), each equal to the input's exact length — the
output is not a fixed-length run and reveals the length. -/
theorem mask_short_reveals_length :
    String.length "short" ≤ 4 * 2 ∧ String.length "abc" ≤ 4 * 2 ∧
    maskSensitiveData "short" 4 = "*****" ∧ maskSensitiveData "abc" 4 = "***" ∧
    (maskSensitiveData "short" 4).length ≠ (maskSensitiveData "abc" 4).length := by
  refine ⟨by decide, by decide, by decide, by decide, by decide⟩

/-- **C3 (amended).** For inputs of length `≤ visibleChars * 2`,
`maskSensitiveData` returns a pure run of asterisks (never the literal
characters of a non-asterisk input), but the run's length equals the input's
exact length (8 for the empty string), so short inputs of different lengths
produce outputs of different lengths. -/
theorem maskSensitiveData_short_spec (s : String) (v : Nat)
    (h : s.length ≤ v * 2) :
    (∀ c ∈ (maskSensitiveData s v).data, c = '*') ∧
    (maskSensitiveData s v).length = (if s.length = 0 then 8 else s.length) := by
  constructor
  · intro c hc
    simp only [maskSensitiveData, if_pos h] at hc
    exact List.eq_of_mem_replicate hc
  · simp only [maskSensitiveData, if_pos h]
    show (List.replicate _ '*').length = _
    simp

/-- Witness for `maskSensitiveData_short_spec` at `s = "short"`, `v = 4`. -/
theorem maskSensitiveData_short_spec_witness :
    (∀ c ∈ (maskSensitiveData "short" 4).data, c = '*') ∧
    (maskSensitiveData "short" 4).length = (if String.length "short" = 0 then 8 else String.length "short") :=
  maskSensitiveData_short_spec "short" 4 (by decide)

/-- **C7.** `checkApiKeyRateLimitCore` computes
`percentageUsed = used / max * 100` and sets `isNearLimit` exactly when the
percentage is strictly above 80; at `used = 850, max = 1000` it yields
`85` and `true`, at `used = 800, max = 1000` it yields `80` and `false`. -/
theorem checkApiKeyRateLimit_spec :
    (∀ r m : Option Nat,
      (checkApiKeyRateLimitCore r m).percentageUsed =
        ((checkApiKeyRateLimitCore r m).requestsUsed : ℚ) /
          ((checkApiKeyRateLimitCore r m).maxRequests : ℚ) * 100 ∧
      ((checkApiKeyRateLimitCore r m).isNearLimit = true ↔
        80 < (checkApiKeyRateLimitCore r m).percentageUsed)) ∧
    ((checkApiKeyRateLimitCore (some 850) (some 1000)).percentageUsed = 85 ∧
      (checkApiKeyRateLimitCore (some 850) (some 1000)).isNearLimit = true) ∧
    ((checkApiKeyRateLimitCore (some 800) (some 1000)).percentageUsed = 80 ∧
      (checkApiKeyRateLimitCore (some 800) (some 1000)).isNearLimit = false) := by
  refine ⟨fun r m => ⟨rfl, ?_⟩, ⟨?_, ?_⟩, ⟨?_, ?_⟩⟩ <;>
    simp [checkApiKeyRateLimitCore, jsOrNat] <;> norm_num

/-- Helper: the catch-all `API error: <msg>` string coincides with none of the
fixed error strings of the taxonomy, so `taxonomyOf` sends it to
`unknownUpstreamError` whatever the upstream message was. -/
theorem taxonomyOf_apiError (msg : String) :
    taxonomyOf { isValid := false, error := some ("API error: " ++ msg) } =
      .unknownUpstreamError := by
  obtain ⟨l⟩ := msg
  have h1 : ("API error: " ++ String.mk l) ≠ "Invalid API key format" := by
    intro h; have := congrArg String.data h; simp [String.append] at this
  have h2 : ("API error: " ++ String.mk l) ≠ "Invalid or expired API key" := by
    intro h; have := congrArg String.data h; simp [String.append] at this
  have h3 : ("API error: " ++ String.mk l) ≠ "API rate limit exceeded, please try again later" := by
    intro h; have := congrArg String.data h; simp [String.append] at this
  have h4 : ("API error: " ++ String.mk l) ≠ "Rate limit exceeded, please try again later" := by
    intro h; have := congrArg String.data h; simp [String.append] at this
  have h5 : ("API error: " ++ String.mk l) ≠ "Unable to connect to Politics and War API" := by
    intro h; have := congrArg String.data h; simp [String.append] at this
  have h6 : ("API error: " ++ String.mk l) ≠ "Request timeout - Politics and War API is slow to respond" := by
    intro h; have := congrArg String.data h; simp [String.append] at this
  have h7 : ("API error: " ++ String.mk l) ≠ "Politics and War API is currently unavailable" := by
    intro h; have := congrArg String.data h; simp [String.append] at this
  simp [taxonomyOf, h1, h2, h3, h4, h5, h6, h7]

/-- **C5.** A secret shorter than 20 characters is rejected locally with the
`InvalidFormat` error and no network call; a secret of length ≥ 20 passes the
local format check and the external call is issued. -/
theorem validate_local_format_check (apiKey : String) (t : TransportOutcome) :
    (apiKey.length < 20 →
      validatePnWApiKey apiKey t =
        ({ isValid := false, error := some "Invalid API key format" }, false)) ∧
    (20 ≤ apiKey.length → (validatePnWApiKey apiKey t).2 = true) := by
  constructor
  · intro h
    simp [validatePnWApiKey, h]
  · intro h
    have hnl : ¬ apiKey.length < 20 := Nat.not_lt.mpr h
    simp only [validatePnWApiKey, if_neg hnl]
    rcases t with resp | ⟨code, status⟩
    · rcases resp with ⟨errors, me, nations⟩
      rcases errors with _ | ⟨msg, rest⟩
      · dsimp only
        rcases me with _ | me <;> rcases nations with _ | nations <;> try rfl
        rcases nations with _ | ⟨nation, more⟩ <;> rfl
      · dsimp only
        split_ifs <;> rfl
    · dsimp only
      split_ifs <;> rfl

/-- Witness for `validate_local_format_check`: a 5-character secret is
rejected locally with no network call, and a 20-character secret reaches the
transport. -/
theorem validate_local_format_check_witness :
    validatePnWApiKey "short" (.err none none) =
      ({ isValid := false, error := some "Invalid API key format" }, false) ∧
    (validatePnWApiKey "AAAAAAAAAAAAAAAAAAAA" (.err none none)).2 = true :=
  ⟨(validate_local_format_check "short" (.err none none)).1 (by decide),
   (validate_local_format_check "AAAAAAAAAAAAAAAAAAAA" (.err none none)).2 (by decide)⟩

/-- **C6 counterexample.** On a thrown transport error carrying HTTP status
429 (no matching message substring, no connection-failure code, not 5xx), the
code returns the rate-limit error (`UpstreamRateLimited`), while the claimed
classification ("any other error payload maps to `UnknownUpstreamError`")
yields `UnknownUpstreamError`. -/
theorem validate_429_refutes_claimed_classification :
    taxonomyOf (validatePnWApiKey "AAAAAAAAAAAAAAAAAAAA"
        (.err none (some 429))).1 = .upstreamRateLimited ∧
    specClaimedClassification (.err none (some 429)) = .unknownUpstreamError ∧
    ErrorTaxonomy.upstreamRateLimited ≠ ErrorTaxonomy.unknownUpstreamError := by
  refine ⟨by decide, by decide, by decide⟩

/-- **C6 (amended).** For every secret passing the local format check and
every external error outcome, the code's classification is: message containing
`Invalid API key` or `Unauthorized` → `InvalidOrExpired`; message containing
`Rate limit exceeded` → `UpstreamRateLimited`; connection failure or timeout →
`UpstreamUnavailable`; **HTTP 429 → `UpstreamRateLimited`**; 5xx →
`UpstreamUnavailable`; anything else → `UnknownUpstreamError` (first match
wins). -/
theorem validate_error_classification (apiKey : String) (t : TransportOutcome)
    (hlen : 20 ≤ apiKey.length) (herr : t.isErrorOutcome) :
    taxonomyOf (validatePnWApiKey apiKey t).1 = codeClassification t := by
  have hnl : ¬ apiKey.length < 20 := Nat.not_lt.mpr hlen
  rcases t with resp | ⟨code, status⟩
  · rcases resp with ⟨errors, me, nations⟩
    rcases errors with _ | ⟨msg, rest⟩
    · exact absurd rfl herr
    · simp only [validatePnWApiKey, if_neg hnl, codeClassification]
      split_ifs
      · decide
      · decide
      · exact taxonomyOf_apiError msg
  · simp only [validatePnWApiKey, if_neg hnl, codeClassification]
    split_ifs <;> decide

/-- Witness for `validate_error_classification`: an upstream `Invalid API
key` message on a 20-character secret classifies as `InvalidOrExpired` on
both sides. -/
theorem validate_error_classification_witness :
    taxonomyOf (validatePnWApiKey "AAAAAAAAAAAAAAAAAAAA"
        (.ok ⟨["Invalid API key"], none, none⟩)).1 =
      codeClassification (.ok ⟨["Invalid API key"], none, none⟩) :=
  validate_error_classification "AAAAAAAAAAAAAAAAAAAA"
    (.ok ⟨["Invalid API key"], none, none⟩) (by decide)
    (by simp [TransportOutcome.isErrorOutcome])

/-! ### Cipher lemmas and the encrypt/decrypt round trip -/

theorem hexDigitChar_ne_colon (n : Nat) : hexDigitChar n ≠ ':' := by
  unfold hexDigitChar
  split <;> decide

theorem colon_not_mem_bytesToHexList (bs : List Nat) : ':' ∉ bytesToHexList bs := by
  intro h
  simp only [bytesToHexList, List.mem_flatMap, byteToHex, List.mem_cons,
    List.not_mem_nil, or_false] at h
  obtain ⟨b, _, h | h⟩ := h <;> exact hexDigitChar_ne_colon _ h.symm

theorem hexValue_hexDigitChar : ∀ n < 16, hexValue (hexDigitChar n) = n := by decide

theorem hexToBytesList_bytesToHexList (bs : List Nat) (h : ∀ b ∈ bs, b < 256) :
    hexToBytesList (bytesToHexList bs) = bs := by
  induction bs with
  | nil => rfl
  | cons b bs ih =>
    have hb : b < 256 := h b (List.mem_cons_self _ _)
    have h16 : b / 16 < 16 := by omega
    have hm : b % 16 < 16 := Nat.mod_lt _ (by norm_num)
    simp only [bytesToHexList, List.flatMap_cons, byteToHex, List.cons_append,
      List.nil_append, hexToBytesList]
    rw [hexValue_hexDigitChar _ h16, hexValue_hexDigitChar _ hm]
    have hrest : (([] : List Char).append (List.map byteToHex bs).flatten) = bytesToHexList bs := rfl
    rw [hrest, ih (fun x hx => h x (List.mem_cons_of_mem _ hx))]
    congr 1
    omega

theorem splitColonList_no_colon (a : List Char) (h : ':' ∉ a) : splitColonList a = [a] := by
  induction a with
  | nil => rfl
  | cons c cs ih =>
    have hc : ¬ c = ':' := fun hh => h (hh ▸ List.mem_cons_self _ _)
    have hcs : ':' ∉ cs := fun hh => h (List.mem_cons_of_mem _ hh)
    simp only [splitColonList, if_neg hc, ih hcs]

theorem splitColonList_append (a t : List Char) (h : ':' ∉ a) :
    splitColonList (a ++ ':' :: t) = a :: splitColonList t := by
  induction a with
  | nil => simp [splitColonList]
  | cons c cs ih =>
    have hc : ¬ c = ':' := fun hh => h (hh ▸ List.mem_cons_self _ _)
    have hcs : ':' ∉ cs := fun hh => h (List.mem_cons_of_mem _ hh)
    simp only [List.cons_append, splitColonList, if_neg hc, List.append_eq]
    rw [ih hcs]


theorem char_toNat_lt (c : Char) : c.toNat < 1114112 := by
  rcases c.valid with h | h2
  · have h0 : (0xd800 : Nat) < UInt32.size := by norm_num [UInt32.size]
    have := UInt32.toNat_lt_of_lt h0 h
    exact Nat.lt_trans this (by norm_num)
  · have h0 : (0x110000 : Nat) < UInt32.size := by norm_num [UInt32.size]
    exact UInt32.toNat_lt_of_lt h0 h2.2

theorem utf8EncodeChar_lt (c : Char) : ∀ b ∈ utf8EncodeChar c, b < 256 := by
  have hn := char_toNat_lt c
  intro b hb
  simp only [utf8EncodeChar] at hb
  split_ifs at hb <;>
    simp only [List.mem_cons, List.not_mem_nil, or_false] at hb <;>
    rcases hb with rfl | rfl | rfl | rfl <;> omega

theorem utf8EncodeChar_ne_nil (c : Char) : utf8EncodeChar c ≠ [] := by
  simp only [utf8EncodeChar]
  split_ifs <;> simp

theorem utf8DecodeOne_length {l : List Nat} {c : Char} {r : List Nat}
    (h : utf8DecodeOne l = some (c, r)) : r.length < l.length := by
  match l with
  | [] => simp [utf8DecodeOne] at h
  | b1 :: r1 =>
    rw [utf8DecodeOne.eq_def] at h
    dsimp only at h
    split_ifs at h
    · injection h with h'
      injection h' with _ h2
      subst h2
      simp only [List.length_cons]
      omega
    · match r1 with
      | [] => simp at h
      | b2 :: r2 =>
        dsimp only at h
        split_ifs at h
        injection h with h'
        injection h' with _ h2
        subst h2
        simp only [List.length_cons]
        omega
    · match r1 with
      | [] => simp at h
      | [b2] => simp at h
      | b2 :: b3 :: r3 =>
        dsimp only at h
        split_ifs at h
        injection h with h'
        injection h' with _ h2
        subst h2
        simp only [List.length_cons]
        omega
    · match r1 with
      | [] => simp at h
      | [b2] => simp at h
      | [b2, b3] => simp at h
      | b2 :: b3 :: b4 :: r4 =>
        dsimp only at h
        split_ifs at h
        injection h with h'
        injection h' with _ h2
        subst h2
        simp only [List.length_cons]
        omega

theorem utf8DecodeOne_encodeChar (c : Char) (l : List Nat) :
    utf8DecodeOne (utf8EncodeChar c ++ l) = some (c, l) := by
  have hn := char_toNat_lt c
  simp only [utf8EncodeChar]
  split_ifs with h1 h2 h3
  · simp only [List.cons_append, List.nil_append]
    rw [utf8DecodeOne.eq_def]
    dsimp only
    rw [if_pos h1, Char.ofNat_toNat]
  · have e1 : ¬ (192 + c.toNat / 64 < 128) := by omega
    have e2 : ¬ (192 + c.toNat / 64 < 192) := by omega
    have e3 : 192 + c.toNat / 64 < 224 := by omega
    have e4 : 128 ≤ 128 + c.toNat % 64 ∧ 128 + c.toNat % 64 < 192 := by
      have := Nat.mod_lt c.toNat (show 0 < 64 by norm_num)
      omega
    have hv : (192 + c.toNat / 64 - 192) * 64 + (128 + c.toNat % 64 - 128) = c.toNat := by
      have := Nat.div_add_mod c.toNat 64
      omega
    simp only [List.cons_append, List.nil_append]
    rw [utf8DecodeOne.eq_def]
    dsimp only
    rw [if_neg e1, if_neg e2, if_pos e3, if_pos e4, hv, Char.ofNat_toNat]
  · have e1 : ¬ (224 + c.toNat / 4096 < 128) := by omega
    have e2 : ¬ (224 + c.toNat / 4096 < 192) := by omega
    have e3 : ¬ (224 + c.toNat / 4096 < 224) := by omega
    have e4 : 224 + c.toNat / 4096 < 240 := by omega
    have e5 : (128 ≤ 128 + c.toNat / 64 % 64 ∧ 128 + c.toNat / 64 % 64 < 192) ∧
        (128 ≤ 128 + c.toNat % 64 ∧ 128 + c.toNat % 64 < 192) := by
      have := Nat.mod_lt (c.toNat / 64) (show 0 < 64 by norm_num)
      have := Nat.mod_lt c.toNat (show 0 < 64 by norm_num)
      omega
    have hv : (224 + c.toNat / 4096 - 224) * 4096 + (128 + c.toNat / 64 % 64 - 128) * 64 +
        (128 + c.toNat % 64 - 128) = c.toNat := by
      have hd : c.toNat / 64 / 64 = c.toNat / 4096 := by
        rw [Nat.div_div_eq_div_mul]
      have h1m := Nat.div_add_mod c.toNat 64
      have h2m := Nat.div_add_mod (c.toNat / 64) 64
      omega
    simp only [List.cons_append, List.nil_append]
    rw [utf8DecodeOne.eq_def]
    dsimp only
    rw [if_neg e1, if_neg e2, if_neg e3, if_pos e4, if_pos e5, hv, Char.ofNat_toNat]
  · have e1 : ¬ (240 + c.toNat / 262144 < 128) := by omega
    have e2 : ¬ (240 + c.toNat / 262144 < 192) := by omega
    have e3 : ¬ (240 + c.toNat / 262144 < 224) := by omega
    have e4 : ¬ (240 + c.toNat / 262144 < 240) := by omega
    have e5 : 240 + c.toNat / 262144 < 256 := by omega
    have e6 : (128 ≤ 128 + c.toNat / 4096 % 64 ∧ 128 + c.toNat / 4096 % 64 < 192) ∧
        (128 ≤ 128 + c.toNat / 64 % 64 ∧ 128 + c.toNat / 64 % 64 < 192) ∧
        (128 ≤ 128 + c.toNat % 64 ∧ 128 + c.toNat % 64 < 192) := by
      have := Nat.mod_lt (c.toNat / 4096) (show 0 < 64 by norm_num)
      have := Nat.mod_lt (c.toNat / 64) (show 0 < 64 by norm_num)
      have := Nat.mod_lt c.toNat (show 0 < 64 by norm_num)
      omega
    have hv : (240 + c.toNat / 262144 - 240) * 262144 +
        (128 + c.toNat / 4096 % 64 - 128) * 4096 +
        (128 + c.toNat / 64 % 64 - 128) * 64 + (128 + c.toNat % 64 - 128) = c.toNat := by
      have hd1 : c.toNat / 64 / 64 = c.toNat / 4096 := by
        rw [Nat.div_div_eq_div_mul]
      have hd2 : c.toNat / 4096 / 64 = c.toNat / 262144 := by
        rw [Nat.div_div_eq_div_mul]
      have h1m := Nat.div_add_mod c.toNat 64
      have h2m := Nat.div_add_mod (c.toNat / 64) 64
      have h3m := Nat.div_add_mod (c.toNat / 4096) 64
      omega
    simp only [List.cons_append, List.nil_append]
    rw [utf8DecodeOne.eq_def]
    dsimp only
    rw [if_neg e1, if_neg e2, if_neg e3, if_neg e4, if_pos e5, if_pos e6, hv, Char.ofNat_toNat]

theorem utf8DecodeFuel_congr (f1 : Nat) : ∀ (f2 : Nat) (l : List Nat),
    l.length ≤ f1 → l.length ≤ f2 → utf8DecodeFuel f1 l = utf8DecodeFuel f2 l := by
  induction f1 with
  | zero =>
    intro f2 l h1 _
    have : l = [] := List.eq_nil_of_length_eq_zero (Nat.le_zero.mp h1)
    subst this
    cases f2 <;> rfl
  | succ f1 ih =>
    intro f2 l h1 h2
    match l with
    | [] => cases f2 <;> rfl
    | b :: rest =>
      match f2 with
      | 0 => simp at h2
      | f2 + 1 =>
        rw [utf8DecodeFuel, utf8DecodeFuel]
        cases hone : utf8DecodeOne (b :: rest) with
        | none => rfl
        | some cr =>
          obtain ⟨c, r⟩ := cr
          have hlen := utf8DecodeOne_length hone
          simp only [List.length_cons] at hlen h1 h2
          dsimp only
          rw [ih f2 r (by omega) (by omega)]

theorem utf8Decode_encodeChar_append (c : Char) (l : List Nat) :
    utf8Decode (utf8EncodeChar c ++ l) = (utf8Decode l).map (fun cs => c :: cs) := by
  have hne := utf8EncodeChar_ne_nil c
  match henc : utf8EncodeChar c ++ l with
  | [] => exact absurd (List.append_eq_nil.mp henc).1 hne
  | b :: rest =>
    rw [utf8Decode, show (b :: rest).length = rest.length + 1 from rfl, utf8DecodeFuel,
      ← henc, utf8DecodeOne_encodeChar]
    have hlen : l.length ≤ rest.length := by
      have : (utf8EncodeChar c ++ l).length = rest.length + 1 := by rw [henc]; rfl
      rw [List.length_append] at this
      have hpos : 0 < (utf8EncodeChar c).length := List.length_pos.mpr hne
      omega
    dsimp only
    rw [utf8Decode, utf8DecodeFuel_congr rest.length l.length l hlen (Nat.le.refl)]

theorem utf8Decode_utf8Encode_append (cs : List Char) (l : List Nat) :
    utf8Decode (utf8Encode cs ++ l) = (utf8Decode l).map (fun ds => cs ++ ds) := by
  induction cs with
  | nil =>
    rw [show utf8Encode [] = ([] : List Nat) from rfl, List.nil_append]
    cases utf8Decode l <;> rfl
  | cons c cs ih =>
    have hsplit : utf8Encode (c :: cs) ++ l = utf8EncodeChar c ++ (utf8Encode cs ++ l) := by
      simp [utf8Encode]
    rw [hsplit, utf8Decode_encodeChar_append, ih]
    cases utf8Decode l <;> rfl

theorem utf8Decode_utf8Encode (cs : List Char) :
    utf8Decode (utf8Encode cs) = some cs := by
  have h := utf8Decode_utf8Encode_append cs []
  rw [List.append_nil, show utf8Decode ([] : List Nat) = some [] from rfl,
    Option.map_some'] at h
  simpa using h

theorem keyStream_length (key : Nat) (iv : List Nat) (len : Nat) :
    (keyStream key iv len).length = len := by
  simp [keyStream]

theorem keyStream_lt (key : Nat) (iv : List Nat) (len : Nat) :
    ∀ b ∈ keyStream key iv len, b < 256 := by
  intro b hb
  simp only [keyStream, List.mem_map] at hb
  obtain ⟨i, _, rfl⟩ := hb
  exact Nat.mod_lt _ (by norm_num)

theorem gcmTag_lt (key : Nat) (iv aad ct : List Nat) :
    ∀ b ∈ gcmTag key iv aad ct, b < 256 := by
  intro b hb
  simp only [gcmTag, List.mem_map] at hb
  obtain ⟨i, _, rfl⟩ := hb
  exact Nat.mod_lt _ (by norm_num)

theorem utf8Encode_lt (cs : List Char) : ∀ b ∈ utf8Encode cs, b < 256 := by
  intro b hb
  simp only [utf8Encode, List.mem_flatMap] at hb
  obtain ⟨c, _, hc⟩ := hb
  exact utf8EncodeChar_lt c b hc

theorem zipWith_xor_lt (pt : List Nat) : ∀ ks : List Nat, (∀ b ∈ pt, b < 256) →
    (∀ b ∈ ks, b < 256) → ∀ b ∈ List.zipWith (· ^^^ ·) pt ks, b < 256 := by
  have h28 : (256 : Nat) = 2 ^ 8 := by norm_num
  induction pt with
  | nil => intro ks _ _; simp
  | cons a pt ih =>
    intro ks hpt hks b hb
    cases ks with
    | nil => simp at hb
    | cons k ks =>
      simp only [List.zipWith_cons_cons, List.mem_cons] at hb
      rcases hb with rfl | hb
      · have h1 : a < 256 := hpt a (List.mem_cons_self _ _)
        have h2 : k < 256 := hks k (List.mem_cons_self _ _)
        rw [h28] at h1 h2 ⊢
        exact Nat.xor_lt_two_pow h1 h2
      · exact ih ks (fun x hx => hpt x (List.mem_cons_of_mem _ hx))
          (fun x hx => hks x (List.mem_cons_of_mem _ hx)) b hb

theorem zipWith_xor_cancel (pt : List Nat) : ∀ ks : List Nat, pt.length ≤ ks.length →
    List.zipWith (· ^^^ ·) (List.zipWith (· ^^^ ·) pt ks) ks = pt := by
  induction pt with
  | nil => intro ks _; simp
  | cons a pt ih =>
    intro ks h
    cases ks with
    | nil => simp at h
    | cons k ks =>
      simp only [List.zipWith_cons_cons]
      rw [Nat.xor_cancel_right, ih ks (by simpa using h)]

theorem splitColon_hex4 (salt : String) (x y z : List Nat) (hs : ':' ∉ salt.data) :
    splitColon (salt ++ ":" ++ bytesToHex x ++ ":" ++ bytesToHex y ++ ":" ++ bytesToHex z) =
      [salt, bytesToHex x, bytesToHex y, bytesToHex z] := by
  have hx := colon_not_mem_bytesToHexList x
  have hy := colon_not_mem_bytesToHexList y
  have hz := colon_not_mem_bytesToHexList z
  unfold splitColon
  have hdata : (salt ++ ":" ++ bytesToHex x ++ ":" ++ bytesToHex y ++ ":" ++ bytesToHex z).data =
      salt.data ++ ':' :: (bytesToHexList x ++ ':' :: (bytesToHexList y ++ ':' :: bytesToHexList z)) := by
    simp [bytesToHex, List.append_assoc]
  rw [hdata, splitColonList_append _ _ hs, splitColonList_append _ _ hx,
    splitColonList_append _ _ hy, splitColonList_no_colon _ hz]
  rfl

/-- **C4.** Round trip: for every plaintext string `s` and master key `k`
(with the master key set, i.e. present and non-empty), decrypting the result
of encrypting `s` under `k` — with any salt/IV randomness drawn by the call —
yields `s` again. -/
theorem encrypt_decrypt_roundtrip (s k : String) (randSalt randIV : List Nat)
    (hk : k ≠ "") (hiv : ∀ b ∈ randIV, b < 256) :
    (encryptApiKeyM (some k) randSalt randIV s none).bind
      (fun blob => decryptApiKeyM (some k) blob) = .ok s := by
  obtain ⟨sd⟩ := s
  simp only [encryptApiKeyM, if_neg hk, Option.getD_none, Except.bind]
  set key := deriveKey k (bytesToHex randSalt) with hkey
  set pt := utf8Encode (String.mk sd).data with hpt
  set ks := keyStream key randIV pt.length with hks
  set ct := List.zipWith (· ^^^ ·) pt ks with hct
  set tag := gcmTag key randIV (hexToBytes (bytesToHex randSalt)) ct with htag
  have hptlt : ∀ b ∈ pt, b < 256 := utf8Encode_lt sd
  have hkslt : ∀ b ∈ ks, b < 256 := keyStream_lt key randIV pt.length
  have hkslen : ks.length = pt.length := keyStream_length key randIV pt.length
  have hctlt : ∀ b ∈ ct, b < 256 := zipWith_xor_lt pt ks hptlt hkslt
  have htaglt : ∀ b ∈ tag, b < 256 :=
    gcmTag_lt key randIV (hexToBytes (bytesToHex randSalt)) ct
  have hiv2 : hexToBytes (bytesToHex randIV) = randIV :=
    hexToBytesList_bytesToHexList randIV hiv
  have hct2 : hexToBytes (bytesToHex ct) = ct :=
    hexToBytesList_bytesToHexList ct hctlt
  have htag2 : hexToBytes (bytesToHex tag) = tag :=
    hexToBytesList_bytesToHexList tag htaglt
  have hctlen : ct.length = pt.length := by
    rw [hct, List.length_zipWith, hkslen, Nat.min_self]
  simp only [decryptApiKeyM, if_neg hk]
  have hsalt2 : ':' ∉ (bytesToHex randSalt).data := colon_not_mem_bytesToHexList randSalt
  rw [splitColon_hex4 (bytesToHex randSalt) randIV tag ct hsalt2]
  dsimp only
  rw [hiv2, hct2, htag2, if_pos rfl, hctlen, ← hks, hct,
    zipWith_xor_cancel pt ks (le_of_eq hkslen.symm), utf8Decode_utf8Encode]

/-- Witness for `encrypt_decrypt_roundtrip`: a concrete secret, master key,
salt and IV. -/
theorem encrypt_decrypt_roundtrip_witness :
    (encryptApiKeyM (some "master") [171, 5] [9, 250] "hi" none).bind
      (fun blob => decryptApiKeyM (some "master") blob) = .ok "hi" :=
  encrypt_decrypt_roundtrip "hi" "master" [171, 5] [9, 250] (by decide) (by decide)


/-! ### Authorization and unlink theorems -/

/-- A set, non-empty master key makes `encryptApiKey` succeed: the only
failure paths of the source are the missing/empty `ENCRYPTION_KEY`. -/
theorem encryptApiKeyM_isOk (mk : String) (h : mk ≠ "") (randSalt randIV : List Nat)
    (plaintext : String) (userSalt : Option String) :
    ∃ b, encryptApiKeyM (some mk) randSalt randIV plaintext userSalt = .ok b := by
  simp only [encryptApiKeyM, if_neg h]
  exact ⟨_, rfl⟩

/-- **C1 counterexample.** An alliance manager whose role is `"viewer"`
(active, not a system admin) is *allowed* both mutations on their alliance's
credential: the delete handler (body slug supplied, as the middleware gates
on `req.body.allianceSlug`) answers 200, and linking an alliance key answers
200 as well — although the `requireAllianceAdmin` middleware, which neither
route uses, would have answered 403. -/
theorem alliance_mutation_allows_viewer :
    viewerUser.isSystemAdmin = false ∧
    viewerGrant.role = "viewer" ∧
    viewerGrant ∈ viewerUser.allianceManagers ∧
    viewerGrant.isActive = true ∧
    (deleteAllianceApiKey demoDb viewerUser "acme" (some "acme")).1 = 200 ∧
    (linkApiKey (some "master") [5] [6] demoDb viewerUser "CCCCCCCCCCCCCCCCCCCC"
      (some "alliance") (some "acme") okTransport).1 = 200 ∧
    requireAllianceAdmin viewerUser (some "acme") = .error 403 := by
  exact ⟨rfl, rfl, List.mem_cons_self _ _, rfl, rfl, by decide, rfl⟩

/-- **C1 (amended).** Neither mutating action on an alliance credential
consults the manager's role tier.  (1) For a non-system-admin caller,
unlinking answers 200 iff the request *body* names a non-empty alliance slug
for which the caller's session holds an active grant (the route's path
parameter is named `slug`, so the middleware sees only
`req.body.allianceSlug`), the path alliance exists, and an active manager row
for (caller, path alliance) exists.  (2) Without a body slug the unlink is a
400 for every caller.  (3) For a non-system-admin caller with a well-formed
body, an upstream-valid secret, no duplicate hit and a set master key,
linking an alliance credential answers 200 iff the alliance exists and the
caller holds an active manager row for it — the role is never consulted. -/
theorem alliance_mutation_role_not_checked :
    (∀ (db : Db) (user : AuthUser) (slug : String) (bodySlug : Option String),
      user.isSystemAdmin = false →
      ((deleteAllianceApiKey db user slug bodySlug).1 = 200 ↔
        (∃ s, bodySlug = some s ∧ s ≠ "" ∧
          (user.allianceManagers.find? (fun m =>
            m.allianceSlug == s && m.isActive)).isSome) ∧
        ∃ a, db.alliances.find? (fun a => a.routeSlug == slug) = some a ∧
          (db.allianceManagers.find? (fun m =>
            m.userId == user.id && m.allianceId == a.id && m.isActive)).isSome)) ∧
    (∀ (db : Db) (user : AuthUser) (slug : String),
      (deleteAllianceApiKey db user slug none).1 = 400) ∧
    (∀ (mk : String) (randSalt randIV : List Nat) (db : Db) (user : AuthUser)
        (apiKey : String) (slug : String) (transport : TransportOutcome),
      mk ≠ "" →
      user.isSystemAdmin = false →
      linkBodyValid apiKey (some "alliance") (some slug) = true →
      (validatePnWApiKey apiKey transport).1.isValid = true →
      duplicateKeyCheck (some mk) db apiKey = false →
      ((linkApiKey (some mk) randSalt randIV db user apiKey (some "alliance")
          (some slug) transport).1 = 200 ↔
        ∃ a, db.alliances.find? (fun a => a.routeSlug == slug) = some a ∧
          (db.allianceManagers.find? (fun m =>
            m.userId == user.id && m.allianceId == a.id && m.isActive)).isSome)) := by
  refine ⟨?_, ?_, ?_⟩
  · intro db user slug bodySlug h
    unfold deleteAllianceApiKey requireAllianceManager
    cases bodySlug with
    | none => simp
    | some s =>
      by_cases hs : s = ""
      · simp [hs]
      · have hgate : (∃ s', (some s : Option String) = some s' ∧ s' ≠ "" ∧
            (user.allianceManagers.find? (fun m =>
              m.allianceSlug == s' && m.isActive)).isSome) ↔
            (user.allianceManagers.find? (fun m =>
              m.allianceSlug == s && m.isActive)).isSome := by
          constructor
          · rintro ⟨s', heq, _, hs'⟩
            cases Option.some.injEq s s' ▸ heq
            exact hs'
          · intro hh
            exact ⟨s, rfl, hs, hh⟩
        rw [hgate]
        simp only [if_neg hs, h, Bool.false_eq_true, if_false]
        cases hgrant : user.allianceManagers.find? (fun m =>
            m.allianceSlug == s && m.isActive) with
        | none => simp
        | some g =>
          simp only [Option.isSome_some, true_and]
          cases halli : db.alliances.find? (fun a => a.routeSlug == slug) with
          | none => simp
          | some a =>
            simp only [Option.some.injEq]
            cases hrow : db.allianceManagers.find? (fun m =>
                m.userId == user.id && m.allianceId == a.id && m.isActive) with
            | none =>
              simp [hrow, h]
              intro x hx h1 h2
              have hnp := List.find?_eq_none.mp hrow x hx
              simpa [h1, h2] using hnp
            | some m =>
              simp [hrow, h]
              have hmem := List.mem_of_find?_eq_some hrow
              have hp := List.find?_some hrow
              simp only [Bool.and_eq_true, beq_iff_eq] at hp
              exact ⟨m, hmem, ⟨hp.1.1, hp.1.2⟩, hp.2⟩
  · intro db user slug
    rfl
  · intro mk randSalt randIV db user apiKey slug transport hmk h hbody hvalid hdup
    obtain ⟨b, hb⟩ := encryptApiKeyM_isOk mk hmk randSalt randIV apiKey none
    unfold linkApiKey
    simp only [hbody, hvalid, hdup, Bool.true_eq_false, if_false, Option.getD_some]
    rw [if_neg (by decide : ¬ (("alliance" : String) == "personal") = true)]
    cases halli : db.alliances.find? (fun a => a.routeSlug == slug) with
    | none => simp
    | some a =>
      simp only [Option.some.injEq]
      cases hrow : db.allianceManagers.find? (fun m =>
          m.userId == user.id && m.allianceId == a.id && m.isActive) with
      | none =>
        simp [hrow, h]
        intro x hx h1 h2
        have hnp := List.find?_eq_none.mp hrow x hx
        simpa [h1, h2] using hnp
      | some m =>
        rw [if_neg (by simp [h] : ¬ ((some m : Option ManagerGrant) = none ∧
          user.isSystemAdmin = false)), hb]
        simp [hrow]
        have hmem := List.mem_of_find?_eq_some hrow
        have hp := List.find?_some hrow
        simp only [Bool.and_eq_true, beq_iff_eq] at hp
        exact ⟨m, hmem, ⟨hp.1.1, hp.1.2⟩, hp.2⟩

/-- Witness for `alliance_mutation_role_not_checked`: all three parts at the
viewer fixture. -/
theorem alliance_mutation_role_not_checked_witness :
    ((deleteAllianceApiKey demoDb viewerUser "acme" (some "acme")).1 = 200 ↔
      (∃ s, (some "acme" : Option String) = some s ∧ s ≠ "" ∧
        (viewerUser.allianceManagers.find? (fun m =>
          m.allianceSlug == s && m.isActive)).isSome) ∧
      ∃ a, demoDb.alliances.find? (fun a => a.routeSlug == "acme") = some a ∧
        (demoDb.allianceManagers.find? (fun m =>
          m.userId == viewerUser.id && m.allianceId == a.id && m.isActive)).isSome) ∧
    (deleteAllianceApiKey demoDb viewerUser "acme" none).1 = 400 ∧
    ((linkApiKey (some "master") [5] [6] demoDb viewerUser "CCCCCCCCCCCCCCCCCCCC"
        (some "alliance") (some "acme") okTransport).1 = 200 ↔
      ∃ a, demoDb.alliances.find? (fun a => a.routeSlug == "acme") = some a ∧
        (demoDb.allianceManagers.find? (fun m =>
          m.userId == viewerUser.id && m.allianceId == a.id && m.isActive)).isSome) :=
  ⟨alliance_mutation_role_not_checked.1 demoDb viewerUser "acme" (some "acme") rfl,
   alliance_mutation_role_not_checked.2.1 demoDb viewerUser "acme",
   alliance_mutation_role_not_checked.2.2 "master" [5] [6] demoDb viewerUser
     "CCCCCCCCCCCCCCCCCCCC" "acme" okTransport (by decide) rfl (by decide)
     (by decide) (by decide)⟩

/-- Every user record in the post-unlink store that carries the caller's id
has no stored credential. -/
theorem cleared_after_unlink (l : List UserRec) (uid : String) :
    ∀ u ∈ l.map (fun x => if x.id = uid then clearPnwFields x else x),
      u.id = uid → u.pnwApiKey = none := by
  intro u hu hid
  simp only [List.mem_map] at hu
  obtain ⟨x, _, rfl⟩ := hu
  by_cases hx : x.id = uid
  · simp [hx, clearPnwFields]
  · rw [if_neg hx] at hid ⊢
    exact absurd hid hx

/-- **C9.** Unlinking the personal credential of an existing caller returns
200 whether or not a credential is stored, returns 200 again on a second
call, and after either call the caller's stored credential is absent. -/
theorem deletePersonal_eq (db : Db) (user : AuthUser)
    (h : (db.users.find? (fun u => u.id == user.id)).isSome = true) :
    deletePersonalApiKey db user =
      (200,
        { db with
          users := db.users.map (fun u =>
            if u.id = user.id then clearPnwFields u else u)
          auditLog := db.auditLog ++
            [{ userId := user.id, action := "api_key_removed" }] }) := by
  unfold deletePersonalApiKey
  rw [if_pos h]

theorem unlink_personal_idempotent (db : Db) (user : AuthUser)
    (h : (db.users.find? (fun u => u.id == user.id)).isSome) :
    (deletePersonalApiKey db user).1 = 200 ∧
    (deletePersonalApiKey (deletePersonalApiKey db user).2 user).1 = 200 ∧
    (∀ u ∈ (deletePersonalApiKey db user).2.users,
      u.id = user.id → u.pnwApiKey = none) ∧
    (∀ u ∈ (deletePersonalApiKey (deletePersonalApiKey db user).2 user).2.users,
      u.id = user.id → u.pnwApiKey = none) := by
  have h2 : ((db.users.map (fun u =>
      if u.id = user.id then clearPnwFields u else u)).find? (fun u =>
        u.id == user.id)).isSome = true := by
    rw [List.find?_isSome] at h ⊢
    obtain ⟨x, hx, hp⟩ := h
    refine ⟨if x.id = user.id then clearPnwFields x else x,
      List.mem_map_of_mem _ hx, ?_⟩
    by_cases hid : x.id = user.id
    · simp [hid, clearPnwFields]
    · rw [if_neg hid]
      exact hp
  rw [deletePersonal_eq db user h]
  dsimp only
  rw [deletePersonal_eq _ user h2]
  dsimp only
  exact ⟨rfl, rfl, cleared_after_unlink db.users user.id,
    cleared_after_unlink _ user.id⟩

/-- Witness for `unlink_personal_idempotent` at the personal fixture (a
caller whose row holds a linked credential). -/
theorem unlink_personal_idempotent_witness :
    (deletePersonalApiKey dbPersonal demoAuth).1 = 200 ∧
    (deletePersonalApiKey (deletePersonalApiKey dbPersonal demoAuth).2 demoAuth).1 = 200 ∧
    (∀ u ∈ (deletePersonalApiKey dbPersonal demoAuth).2.users,
      u.id = demoAuth.id → u.pnwApiKey = none) ∧
    (∀ u ∈ (deletePersonalApiKey (deletePersonalApiKey dbPersonal demoAuth).2 demoAuth).2.users,
      u.id = demoAuth.id → u.pnwApiKey = none) :=
  unlink_personal_idempotent dbPersonal demoAuth (by decide)

/-- **C10.** A successful personal unlink rewrites exactly the caller's row
through `clearPnwFields`, and `clearPnwFields` nulls exactly the three fields
`pnwApiKey`, `pnwNationId`, `pnwNationName` while preserving every other
field of the user record. -/
theorem unlink_personal_frame (db : Db) (user : AuthUser)
    (h : (db.users.find? (fun u => u.id == user.id)).isSome) :
    (deletePersonalApiKey db user).2.users =
      db.users.map (fun u => if u.id = user.id then clearPnwFields u else u) ∧
    ∀ u : UserRec,
      (clearPnwFields u).pnwApiKey = none ∧
      (clearPnwFields u).pnwNationId = none ∧
      (clearPnwFields u).pnwNationName = none ∧
      (clearPnwFields u).id = u.id ∧
      (clearPnwFields u).discordId = u.discordId ∧
      (clearPnwFields u).discordUsername = u.discordUsername ∧
      (clearPnwFields u).discordAvatar = u.discordAvatar ∧
      (clearPnwFields u).discordTag = u.discordTag ∧
      (clearPnwFields u).timezone = u.timezone ∧
      (clearPnwFields u).language = u.language ∧
      (clearPnwFields u).preferences = u.preferences ∧
      (clearPnwFields u).createdAt = u.createdAt ∧
      (clearPnwFields u).lastLogin = u.lastLogin := by
  constructor
  · simp [deletePersonalApiKey, h]
  · intro u
    exact ⟨rfl, rfl, rfl, rfl, rfl, rfl, rfl, rfl, rfl, rfl, rfl, rfl, rfl⟩

/-- Witness for `unlink_personal_frame` at the personal fixture. -/
theorem unlink_personal_frame_witness :
    (deletePersonalApiKey dbPersonal demoAuth).2.users =
      dbPersonal.users.map (fun u =>
        if u.id = demoAuth.id then clearPnwFields u else u) ∧
    (clearPnwFields demoUserRec).pnwApiKey = none :=
  ⟨(unlink_personal_frame dbPersonal demoAuth (by decide)).1,
   ((unlink_personal_frame dbPersonal demoAuth (by decide)).2 demoUserRec).1⟩

/-- **C2 / code bug.** The duplicate-key check fetches only the *first* user
holding any stored credential and never excludes the requester.  Evaluated at
the failing input: `userA` (first key-holder) stores secret A, `userB` stores
secret B, and requester `userC` links secret B — the handler answers 200 and
stores the secret although it is already linked to the different owner
`userB`; conversely `userA` re-linking their own secret A is rejected with
409 although A is linked to no *different* owner. -/
theorem link_duplicate_check_wrong :
    decryptApiKeyM (some "master") blobB = .ok "BBBBBBBBBBBBBBBBBBBB" ∧
    userB.pnwApiKey = some blobB ∧
    userB.id ≠ callerC.id ∧
    userB ∈ dbLink.users ∧
    (linkApiKey (some "master") [5] [6] dbLink callerC "BBBBBBBBBBBBBBBBBBBB"
      none none okTransport).1 = 200 ∧
    decryptApiKeyM (some "master") blobA = .ok "AAAAAAAAAAAAAAAAAAAA" ∧
    userA.id = callerA.id ∧
    userA.pnwApiKey = some blobA ∧
    (linkApiKey (some "master") [5] [6] dbLink callerA "AAAAAAAAAAAAAAAAAAAA"
      none none okTransport).1 = 409 := by
  refine ⟨rfl, rfl, by decide, by decide, by decide, rfl, rfl, rfl, by decide⟩

end AllianceManager
